import Mathlib

/-!
Verification of the social-signals subsystem (`backend/social_signals.py`):
a shallow embedding of the source fetchers' response processing, the lexical
signal scorer, the PMF aggregator, and the collection orchestrator, together
with theorems settling the frozen claims about them.

Python dictionaries holding post data are embedded as functions
`String → Option PVal`; parsed JSON payloads as the inductive `PVal`.
Floating-point arithmetic of the source is modelled over `ℝ`; Python's
banker's rounding (`round`) is modelled exactly by `pyRound`.
-/

/-- Values stored in parsed JSON payloads and in post dictionaries.
`vReal` only arises from the scorer's `signal_score` field; JSON numeric
fields returned by the three search APIs are integral counters and are
modelled by `vInt` (non-integral JSON numbers are outside the embedding). -/
inductive PVal where
  | vNull : PVal
  | vBool : Bool → PVal
  | vInt : ℤ → PVal
  | vStr : String → PVal
  | vReal : ℝ → PVal
  | vArr : List PVal → PVal
  | vObj : List (String × PVal) → PVal

/-- A Python dict keyed by strings: `none` means the key is absent. -/
def PyDict : Type := String → Option PVal

instance : Inhabited PyDict := ⟨fun _ => none⟩

/-- Lookup `d.get(k)` on a parsed JSON object: returns `vNull` (Python `None`)
when the key is absent; non-object values yield `vNull` (Python would raise
`AttributeError` there, which no claim exercises). -/
def pyGet (d : PVal) (k : String) : PVal :=
  match d with
  | .vObj fs => (fs.lookup k).getD .vNull
  | _ => .vNull

/-- Lookup `d.get(k, dflt)` on a parsed JSON object. -/
def pyGetD (d : PVal) (k : String) (dflt : PVal) : PVal :=
  match d with
  | .vObj fs => (fs.lookup k).getD dflt
  | _ => dflt

/-- Iteration over a JSON value expected to be a list: non-lists iterate as
empty (Python would raise on non-iterables, which no claim exercises). -/
def asList : PVal → List PVal
  | .vArr xs => xs
  | _ => []

/-- Truth test `bool(v)` of Python on the embedded values. Floats are treated
as truthy (the embedding never branches on a float's truthiness). -/
def pyTruthy : PVal → Bool
  | .vNull => false
  | .vBool b => b
  | .vInt n => n ≠ 0
  | .vStr s => s ≠ ""
  | .vReal _ => true
  | .vArr xs => !xs.isEmpty
  | .vObj fs => !fs.isEmpty

/-- Short-circuit `a or b` of Python on embedded values. -/
def pyOrV (a b : PVal) : PVal := if pyTruthy a then a else b

/-- String content of a value known to the source to be a string (or absent
or `None`, both contributing the empty string). -/
def pvStr : PVal → String
  | .vStr s => s
  | _ => ""

/-- Evaluate `(d.get(k) or "")` on a post dictionary whose field `k` holds a
string or `None` (as all fetcher-produced posts do). -/
def pyStrOr (v : Option PVal) : String :=
  match v with
  | some (.vStr s) => s
  | _ => ""

/-- Rendering `f"{v}"` of a scalar value (container reprs are not needed). -/
def pyFStr : PVal → String
  | .vStr s => s
  | .vInt n => toString n
  | .vBool b => if b then "True" else "False"
  | .vNull => "None"
  | _ => ""

/-- Whitespace characters recognised by Python's `str.split()` / `str.strip()`
(ASCII range). -/
def isSpaceChar (c : Char) : Bool :=
  c = ' ' || c = '\t' || c = '\n' || c = '\r' || c.toNat = 11 || c.toNat = 12

/-- Lower-casing of a single character, as `str.lower` acts on the ASCII
letters (the only characters the keyword matching depends on). -/
def lowerChar (c : Char) : Char :=
  if c.toNat ≥ 65 && c.toNat ≤ 90 then
    if c = 'A' then 'a' else if c = 'B' then 'b' else if c = 'C' then 'c'
    else if c = 'D' then 'd' else if c = 'E' then 'e' else if c = 'F' then 'f'
    else if c = 'G' then 'g' else if c = 'H' then 'h' else if c = 'I' then 'i'
    else if c = 'J' then 'j' else if c = 'K' then 'k' else if c = 'L' then 'l'
    else if c = 'M' then 'm' else if c = 'N' then 'n' else if c = 'O' then 'o'
    else if c = 'P' then 'p' else if c = 'Q' then 'q' else if c = 'R' then 'r'
    else if c = 'S' then 's' else if c = 'T' then 't' else if c = 'U' then 'u'
    else if c = 'V' then 'v' else if c = 'W' then 'w' else if c = 'X' then 'x'
    else if c = 'Y' then 'y' else if c = 'Z' then 'z' else c
  else c

/-- Lower-casing `s.lower()` of a string (ASCII letters). -/
def toLowerPy (s : String) : String := ⟨s.data.map lowerChar⟩

/-- Splitting `s.split()` of Python: words between whitespace runs. -/
def pyWords (cs : List Char) : List (List Char) :=
  (cs.foldr
    (fun c acc =>
      if isSpaceChar c then [] :: acc
      else
        match acc with
        | [] => [[c]]
        | w :: ws => (c :: w) :: ws)
    []).filter (fun w => w ≠ [])

/-- Whitespace-collapsing `" ".join((text or "").split())` of `_compact`. -/
def _compact (s : String) : String := ⟨List.intercalate [' '] (pyWords s.data)⟩

/-- Stripping `s.strip()` of Python: removes leading and trailing whitespace. -/
def pyStrip (s : String) : String :=
  ⟨((s.data.dropWhile isSpaceChar).reverse.dropWhile isSpaceChar).reverse⟩

/-- Replacement of every HTML tag `<[^>]+>` by a single space, matching the
regular-expression substitution in `_strip_html`. -/
def stripTags : List Char → List Char
  | [] => []
  | c :: rest =>
    if c = '<' then
      let pre := rest.takeWhile (fun d => d ≠ '>')
      if pre ≠ [] ∧ pre.length < rest.length then
        ' ' :: stripTags (rest.drop (pre.length + 1))
      else
        '<' :: stripTags rest
    else
      c :: stripTags rest
termination_by cs => cs.length
decreasing_by
  · simp only [List.length_drop, List.length_cons]; omega
  · simp only [List.length_cons]; omega
  · simp only [List.length_cons]; omega

/-- Tag-stripping and whitespace-collapsing `_strip_html` (HTML entity
decoding is not modelled; no claim depends on entity text). -/
def _strip_html (s : String) : String :=
  if s = "" then "" else _compact ⟨stripTags s.data⟩

/-- Substring test `needle in hay` of Python on character lists. -/
def hasSubstr (hay needle : List Char) : Bool :=
  hay.tails.any (fun t => needle.isPrefixOf t)

/-- Digit-list value, most significant first. -/
def digitsVal (ds : List Char) : ℕ :=
  ds.foldl (fun acc c => acc * 10 + (c.toNat - 48)) 0

/-- Rejection of consecutive underscores inside an integer literal. -/
def noDoubleUnderscore : List Char → Bool
  | [] => true
  | [_] => true
  | a :: b :: rest => !(a = '_' && b = '_') && noDoubleUnderscore (b :: rest)

/-- Parsing `int(s)` of a decimal string: surrounding whitespace, an optional
sign, ASCII digits with single underscores between digits; `none` when the
string is unparsable (Python raises `ValueError`). -/
def pyParseInt (s : String) : Option ℤ :=
  let cs := ((s.data.dropWhile isSpaceChar).reverse.dropWhile isSpaceChar).reverse
  let signBody : ℤ × List Char :=
    match cs with
    | '+' :: rest => (1, rest)
    | '-' :: rest => (-1, rest)
    | _ => (1, cs)
  let body := signBody.2
  if body ≠ [] ∧ body.all (fun c => c.isDigit || c = '_') ∧
      body.head? ≠ some '_' ∧ body.getLast? ≠ some '_' ∧
      noDoubleUnderscore body then
    some (signBody.1 * (digitsVal (body.filter (fun c => c.isDigit)) : ℤ))
  else
    none

/-- Coercion `int(value)` with a default on `TypeError` / `ValueError`,
modelling `_safe_int`. Integral values and bools convert; decimal strings
parse; `None`, lists and objects default (non-integral floats are outside
the embedding). -/
def _safe_int (v : PVal) (default : ℤ) : ℤ :=
  match v with
  | .vInt n => n
  | .vBool b => if b then 1 else 0
  | .vStr s => (pyParseInt s).getD default
  | _ => default

/-- Evaluation of `_safe_int(d.get(k))`: a missing key gives `None`, which
`int()` rejects, so the default `0` results. -/
def safeIntO (v : Option PVal) : ℤ :=
  match v with
  | some j => _safe_int j 0
  | none => 0

/-- Keyword set `PAIN_KEYWORDS` of the source (a Python set; modelled as the
duplicate-free list of its elements in source order). -/
def PAIN_KEYWORDS : List String :=
  ["pain", "problem", "struggle", "hard", "difficult", "broken", "frustrating",
   "friction", "annoying", "slow", "expensive", "manual", "waste", "inefficient",
   "workaround", "clunky", "hate", "stuck"]

/-- Keyword set `INTENT_KEYWORDS` of the source. -/
def INTENT_KEYWORDS : List String :=
  ["looking for", "need", "wish", "trying to find", "any tool", "recommend",
   "does anyone use", "what do you use", "searching for", "help with"]

/-- Keyword set `BUYING_KEYWORDS` of the source. -/
def BUYING_KEYWORDS : List String :=
  ["would pay", "willing to pay", "budget", "pricing", "price", "subscription",
   "paid", "buy", "purchase", "cost", "invoice"]

/-- Keyword set `SWITCH_KEYWORDS` of the source. -/
def SWITCH_KEYWORDS : List String :=
  ["alternative", "switch", "migrate", "replace", "competitor", "leaving", "churn"]

/-- Count of distinct phrases of `phrases` occurring case-insensitively as
substrings of `text`, modelling `_contains_any_phrase`: each phrase
contributes at most one regardless of repeated occurrences. -/
def _contains_any_phrase (text : String) (phrases : List String) : ℕ :=
  let lower := toLowerPy text
  phrases.countP (fun phrase => hasSubstr lower.data phrase.data)

open Classical in
/-- Rounding `round(x)` of Python to the nearest integer, ties to the even
integer (banker's rounding). -/
noncomputable def pyRound (x : ℝ) : ℤ :=
  if Int.fract x = 1 / 2 then (if Even ⌊x⌋ then ⌊x⌋ else ⌊x⌋ + 1) else round x

/-- Rounding `round(x, 4)` of Python to four decimal places. -/
noncomputable def pyRound4 (x : ℝ) : ℝ := (pyRound (x * 10000) : ℝ) / 10000

/-- Concatenation `f"{post.get('title') or ''} {post.get('text') or ''}".strip()`
that the scorer matches keywords against. -/
def matchText (post : PyDict) : String :=
  pyStrip (pyStrOr (post "title") ++ " " ++ pyStrOr (post "text"))

/-- Pain-keyword hit count of a post. -/
def painHits (post : PyDict) : ℕ := _contains_any_phrase (matchText post) PAIN_KEYWORDS

/-- Intent-keyword hit count of a post. -/
def intentHits (post : PyDict) : ℕ := _contains_any_phrase (matchText post) INTENT_KEYWORDS

/-- Buying-keyword hit count of a post. -/
def buyingHits (post : PyDict) : ℕ := _contains_any_phrase (matchText post) BUYING_KEYWORDS

/-- Switch-keyword hit count of a post. -/
def switchHits (post : PyDict) : ℕ := _contains_any_phrase (matchText post) SWITCH_KEYWORDS

/-- Engagement value `_safe_int(post.get("engagement"))` read by the scorer. -/
def engagementOf (post : PyDict) : ℤ := safeIntO (post "engagement")

/-- Engagement boost `min(0.25, math.log1p(max(0, engagement)) / 18)`. -/
noncomputable def engagementBoost (engagement : ℤ) : ℝ :=
  min 0.25 (Real.log (1 + ((max 0 engagement : ℤ) : ℝ)) / 18)

/-- Weighted raw score of `_score_post_signal` before the final clamp. -/
noncomputable def rawScore (post : PyDict) : ℝ :=
  (0.35 * min 1.0 ((painHits post : ℝ) / 2))
    + (0.25 * min 1.0 ((intentHits post : ℝ) / 2))
    + (0.25 * min 1.0 ((buyingHits post : ℝ) / 1))
    + (0.15 * min 1.0 ((switchHits post : ℝ) / 1))
    + engagementBoost (engagementOf post)

/-- Clamped per-post score `min(1.0, raw_score)`. -/
noncomputable def clampedScore (post : PyDict) : ℝ := min 1.0 (rawScore post)

/-- Label list of `_score_post_signal`: a category name appears iff its raw
hit count is positive, in the order pain, intent, buying, switch. -/
def signalLabels (post : PyDict) : List String :=
  (if painHits post > 0 then ["pain"] else [])
    ++ (if intentHits post > 0 then ["intent"] else [])
    ++ (if buyingHits post > 0 then ["buying"] else [])
    ++ (if switchHits post > 0 then ["switch"] else [])

/-- Scoring `_score_post_signal(post)`: the result is `{**post}` with the six
signal fields added (`signal_score` rounded to four decimal places). -/
noncomputable def _score_post_signal (post : PyDict) : PyDict :=
  fun k =>
    if k = "signal_score" then some (.vReal (pyRound4 (clampedScore post)))
    else if k = "signal_labels" then some (.vArr ((signalLabels post).map .vStr))
    else if k = "pain_hits" then some (.vInt (painHits post))
    else if k = "intent_hits" then some (.vInt (intentHits post))
    else if k = "buying_hits" then some (.vInt (buyingHits post))
    else if k = "switch_hits" then some (.vInt (switchHits post))
    else post k

/-- Numeric value of the field `post["signal_score"]` (scored posts always
carry a float there; an integer literal is also read numerically). -/
def sigOf (post : PyDict) : ℝ :=
  match post "signal_score" with
  | some (.vReal x) => x
  | some (.vInt n) => (n : ℝ)
  | _ => 0

/-- Integer value of a post field holding an `int`, as `post[k]` reads the
hit-count fields the scorer stored. -/
def intFieldOf (post : PyDict) (k : String) : ℤ :=
  match post k with
  | some (.vInt n) => n
  | _ => 0

/-- Text of a post with a missing or `None` field reading as empty, as the
truthiness filter `if post.get("text")` and `post.get("text", "")` use it. -/
def textOf (post : PyDict) : String := pyStrOr (post "text")

/-- Sort key relation: `a` may precede `b` in the descending
`(signal_score, engagement)` order, i.e. the key of `a` is at least the key
of `b` lexicographically. Python's stable `sorted(..., reverse=True)` is
modelled as a stable merge sort with this relation. -/
def keyGe (a b : PyDict) : Prop :=
  sigOf b < sigOf a ∨ (sigOf b = sigOf a ∧ safeIntO (b "engagement") ≤ safeIntO (a "engagement"))

open Classical in
/-- Stable descending sort by `(signal_score, engagement)`, modelling
`sorted(posts, key=lambda post: (post["signal_score"], _safe_int(post.get("engagement"))), reverse=True)`. -/
noncomputable def sortDesc (l : List PyDict) : List PyDict :=
  l.mergeSort (fun a b => decide (keyGe a b))

/-- Snippet rendering `_snippet(text, max_len)`: whitespace-collapse, then
hard-cap with an ellipsis. -/
def _snippet (text : String) (maxLen : ℕ) : String :=
  if (_compact text).length ≤ maxLen then _compact text
  else ⟨(_compact text).data.take (maxLen - 3)⟩ ++ "..."

/-- Aggregate counts block of `_aggregate_pmf_signals`. -/
structure SignalCounts where
  total_posts : ℕ
  pain_posts : ℕ
  intent_posts : ℕ
  buying_posts : ℕ
  switch_posts : ℕ

/-- One rendered entry of `top_pain_snippets`. -/
structure PainSnippet where
  source : PVal
  url : PVal
  snippet : String
  signal_score : PVal

/-- Result record of `_aggregate_pmf_signals`. -/
structure PmfInsights where
  pmf_signal_score : ℤ
  signal_level : String
  summary : String
  counts : SignalCounts
  source_status : List (String × String)
  top_pain_snippets : List PainSnippet

/-- Arithmetic mean of the `signal_score` values of a post list. -/
noncomputable def avgSignal (posts : List PyDict) : ℝ :=
  (posts.map sigOf).sum / (posts.length : ℝ)

/-- Coverage `sum(status == "completed") / max(1, len(statuses))`. -/
noncomputable def coverageOf (statuses : List (String × String)) : ℝ :=
  ((statuses.countP fun st => st.2 = "completed") : ℝ) / ((max 1 statuses.length : ℕ) : ℝ)

/-- Confidence `min(1.0, total / 40) * coverage`. -/
noncomputable def confidenceOf (total : ℕ) (statuses : List (String × String)) : ℝ :=
  min 1.0 ((total : ℝ) / 40) * coverageOf statuses

/-- PMF score `int(round(100 * (0.7 * avg_signal + 0.3 * confidence)))`. -/
noncomputable def pmfScore (posts : List PyDict) (statuses : List (String × String)) : ℤ :=
  pyRound (100 * (0.7 * avgSignal posts + 0.3 * confidenceOf posts.length statuses))

/-- Categorical level from the integer PMF score. -/
noncomputable def signalLevel (pmf : ℤ) : String :=
  if 70 ≤ pmf then "strong" else if 45 ≤ pmf then "moderate" else "weak"

/-- Top pain posts: filter to positive `pain_hits`, stable-sort descending by
`(signal_score, engagement)`, and take the first 8. -/
noncomputable def topPainPosts (posts : List PyDict) : List PyDict :=
  (sortDesc (posts.filter fun p => 0 < intFieldOf p "pain_hits")).take 8

/-- Snippet list rendered from the top pain posts; the comprehension's
`if post.get("text")` filter runs after the take-8 truncation. -/
noncomputable def topPainSnippets (posts : List PyDict) : List PainSnippet :=
  ((topPainPosts posts).filter fun p => textOf p ≠ "").map fun p =>
    { source := (p "source").getD .vNull
      url := (p "url").getD .vNull
      snippet := _snippet (textOf p) 180
      signal_score := (p "signal_score").getD .vNull }

/-- Aggregation `_aggregate_pmf_signals(scored_posts, statuses)`. -/
noncomputable def _aggregate_pmf_signals (scored_posts : List PyDict)
    (statuses : List (String × String)) : PmfInsights :=
  if scored_posts.isEmpty then
    { pmf_signal_score := 0
      signal_level := "insufficient_data"
      summary := "No social signal posts were collected."
      counts := ⟨0, 0, 0, 0, 0⟩
      source_status := statuses
      top_pain_snippets := [] }
  else
    let total := scored_posts.length
    let pain_posts := scored_posts.countP fun p => 0 < intFieldOf p "pain_hits"
    let intent_posts := scored_posts.countP fun p => 0 < intFieldOf p "intent_hits"
    let buying_posts := scored_posts.countP fun p => 0 < intFieldOf p "buying_hits"
    let switch_posts := scored_posts.countP fun p => 0 < intFieldOf p "switch_hits"
    { pmf_signal_score := pmfScore scored_posts statuses
      signal_level := signalLevel (pmfScore scored_posts statuses)
      summary := s!"Collected {total} posts with {pain_posts} pain mentions, {intent_posts} solution-intent mentions, and {buying_posts} buying signals."
      counts := ⟨total, pain_posts, intent_posts, buying_posts, switch_posts⟩
      source_status := statuses
      top_pain_snippets := topPainSnippets scored_posts }

/-- Evaluation of `limit or default`: Python treats `None` and `0` as falsy,
so both fall back to the configured default. -/
def pyOrInt (limit : Option ℤ) (dflt : ℤ) : ℤ :=
  match limit with
  | none => dflt
  | some v => if v = 0 then dflt else v

/-- Effective result limit of `search_reddit_posts`:
`max(1, min(100, limit or self.default_limit_per_source))`. -/
def redditTake (limit : Option ℤ) (dflt : ℤ) : ℤ := max 1 (min 100 (pyOrInt limit dflt))

/-- Effective result limit of `search_x_posts`:
`max(10, min(100, limit or self.default_limit_per_source))`. -/
def xTake (limit : Option ℤ) (dflt : ℤ) : ℤ := max 10 (min 100 (pyOrInt limit dflt))

/-- Effective result limit of `search_hacker_news_posts`:
`max(1, min(100, limit or self.default_limit_per_source))`. -/
def hnTake (limit : Option ℤ) (dflt : ℤ) : ℤ := max 1 (min 100 (pyOrInt limit dflt))

/-- Test for a JSON object value. -/
def isObjB : PVal → Bool
  | .vObj _ => true
  | _ => false

/-- Abstraction of `_to_iso`: ISO-8601 timestamp rendering is not embedded
(no claim depends on `created_at`); the `None` branch is returned. -/
def toIsoModel (_ : PVal) : PVal := .vNull

/-- Children extraction of `search_reddit_posts`: a dict payload yields
`payload["data"]["children"]`; a list payload concatenates the children of
its dict items; anything else yields none. -/
def redditChildren (payload : PVal) : List PVal :=
  match payload with
  | .vObj fs =>
    asList (pyGetD (pyGetD (.vObj fs) "data" (.vObj [])) "children" (.vArr []))
  | .vArr items =>
    (items.filter isObjB).flatMap fun item =>
      asList (pyGetD (pyGetD item "data" (.vObj [])) "children" (.vArr []))
  | _ => []

/-- Post built by the loop body of `search_reddit_posts` from one child. -/
def redditPostOfChild (child : PVal) : PyDict :=
  let data := pyGetD child "data" (.vObj [])
  let text := _compact
    (pyFStr (pyGetD data "title" (.vStr "")) ++ " " ++ pyFStr (pyGetD data "selftext" (.vStr "")))
  let permalink := pyGet data "permalink"
  let url : PVal :=
    if pyTruthy permalink then .vStr ("https://www.reddit.com" ++ pyFStr permalink)
    else pyGet data "url"
  let upvotes := _safe_int (pyGet data "ups") 0
  let comments := _safe_int (pyGet data "num_comments") 0
  let engagement := upvotes + comments
  fun k =>
    if k = "source" then some (.vStr "reddit")
    else if k = "id" then some (pyGet data "id")
    else if k = "title" then some (.vStr (_compact (pyFStr (pyGetD data "title" (.vStr "")))))
    else if k = "text" then some (.vStr text)
    else if k = "url" then some url
    else if k = "author" then some (pyGet data "author")
    else if k = "community" then some (pyGet data "subreddit_name_prefixed")
    else if k = "created_at" then some (toIsoModel (pyGet data "created_utc"))
    else if k = "engagement" then some (.vInt engagement)
    else if k = "upvotes" then some (.vInt upvotes)
    else if k = "comments" then some (.vInt comments)
    else none

/-- Response processing of `search_reddit_posts` on the parsed JSON payload
of the HTTP call (the reddit API applies the limit server-side). -/
def search_reddit_posts (payload : PVal) : List PyDict :=
  (redditChildren payload).map redditPostOfChild

/-- Absence test `not self.x_bearer_token` of the microblog credential:
true when the token is unset or empty. -/
def tokenMissing (token : Option String) : Bool :=
  match token with
  | none => true
  | some s => s = ""

/-- User records of the payload's `includes.users` that are dicts. -/
def xUsers (payload : PVal) : List PVal :=
  (asList (pyGetD (pyGetD payload "includes" (.vObj [])) "users" (.vArr []))).filter isObjB

/-- Scalar equality used for dict keys (author ids are strings). -/
def pvScalarEq : PVal → PVal → Bool
  | .vStr a, .vStr b => a = b
  | .vInt a, .vInt b => a = b
  | .vBool a, .vBool b => a = b
  | .vNull, .vNull => true
  | _, _ => false

/-- User record for an author id: the comprehension keyed by `user.get("id")`
keeps the last record per id, and `users.get(author_id, {})` defaults to the
empty dict. -/
def xUserFor (users : List PVal) (aid : PVal) : PVal :=
  ((users.filter fun u => pvScalarEq (pyGet u "id") aid).getLast?).getD (.vObj [])

/-- Post built by the loop body of `search_x_posts` from one tweet item. -/
def xPostOfItem (users : List PVal) (item : PVal) : PyDict :=
  let metrics := pyOrV (pyGetD item "public_metrics" (.vObj [])) (.vObj [])
  let author_id := pyGet item "author_id"
  let user := xUserFor users author_id
  let username := pyGet user "username"
  let url : PVal :=
    if pyTruthy username then
      .vStr ("https://x.com/" ++ pyFStr username ++ "/status/" ++ pyFStr (pyGet item "id"))
    else
      .vStr ("https://x.com/i/web/status/" ++ pyFStr (pyGet item "id"))
  let likes := _safe_int (pyGet metrics "like_count") 0
  let replies := _safe_int (pyGet metrics "reply_count") 0
  let reposts := _safe_int (pyGet metrics "retweet_count") 0
  let quotes := _safe_int (pyGet metrics "quote_count") 0
  let engagement := likes + replies + reposts + quotes
  let text := _compact (pvStr (pyGetD item "text" (.vStr "")))
  fun k =>
    if k = "source" then some (.vStr "x")
    else if k = "id" then some (pyGet item "id")
    else if k = "title" then some .vNull
    else if k = "text" then some (.vStr text)
    else if k = "url" then some url
    else if k = "author" then some (pyOrV username (pyOrV (pyGet user "name") author_id))
    else if k = "community" then some (.vStr "x")
    else if k = "created_at" then some (pyGet item "created_at")
    else if k = "engagement" then some (.vInt engagement)
    else if k = "likes" then some (.vInt likes)
    else if k = "replies" then some (.vInt replies)
    else if k = "reposts" then some (.vInt reposts)
    else if k = "quotes" then some (.vInt quotes)
    else none

/-- Fetch `search_x_posts`: with the credential missing it returns the empty
list before any HTTP call (the payload argument stands for the response the
call would have produced and is ignored); otherwise it processes the
payload's `data` items and slices to the effective limit (`results[:take]`). -/
def search_x_posts (token : Option String) (payload : PVal) (limit : Option ℤ) (dflt : ℤ) :
    List PyDict :=
  if tokenMissing token then []
  else
    ((asList (pyGetD payload "data" (.vArr []))).map (xPostOfItem (xUsers payload))).take
      (xTake limit dflt).toNat

/-- Post built by the loop body of `search_hacker_news_posts` from one hit. -/
def hnPostOfHit (hit : PVal) : PyDict :=
  let text0 := _strip_html
    (pvStr (pyOrV (pyGet hit "comment_text") (pyOrV (pyGet hit "story_text") (.vStr ""))))
  let title := _compact
    (pvStr (pyOrV (pyGet hit "title") (pyOrV (pyGet hit "story_title") (.vStr ""))))
  let text := if text0 = "" ∧ title ≠ "" then title else text0
  let points := _safe_int (pyGet hit "points") 0
  let num_comments := _safe_int (pyGet hit "num_comments") 0
  let engagement := points + num_comments
  let url0 := pyOrV (pyGet hit "url") (pyGet hit "story_url")
  let url : PVal :=
    if ¬ pyTruthy url0 ∧ pyTruthy (pyGet hit "objectID") then
      .vStr ("https://news.ycombinator.com/item?id=" ++ pyFStr (pyGet hit "objectID"))
    else url0
  fun k =>
    if k = "source" then some (.vStr "hackernews")
    else if k = "id" then some (pyGet hit "objectID")
    else if k = "title" then some (if title = "" then .vNull else .vStr title)
    else if k = "text" then some (.vStr (_compact text))
    else if k = "url" then some url
    else if k = "author" then some (pyGet hit "author")
    else if k = "community" then some (.vStr "hackernews")
    else if k = "created_at" then some (pyGet hit "created_at")
    else if k = "engagement" then some (.vInt engagement)
    else if k = "points" then some (.vInt points)
    else if k = "comments" then some (.vInt num_comments)
    else none

/-- Response processing of `search_hacker_news_posts` on the parsed JSON
payload (the HN API applies the limit server-side). -/
def search_hacker_news_posts (payload : PVal) : List PyDict :=
  (asList (pyGetD payload "hits" (.vArr []))).map hnPostOfHit

/-- Status recorded for one source in the orchestrator's await loop. -/
def statusFor (token : Option String) (src : String)
    (out : Except String (List PyDict)) : String :=
  match out with
  | .ok _ => if src = "x" ∧ tokenMissing token then "disabled" else "completed"
  | .error _ => "error"

/-- Accumulated state of the orchestrator's await loop. -/
structure FoldAcc where
  statuses : List (String × String)
  posts : List PyDict
  errors : List (String × String)

/-- Await loop of `collect_customer_voice_signals` over the task outcomes in
task order: `Except.error msg` models the task raising an exception whose
message is `msg`; an `ok` outcome extends the post list, an exception
records status `error` and the message, and contributes no posts. -/
def collectFold (token : Option String) :
    List (String × Except String (List PyDict)) → FoldAcc
  | [] => ⟨[], [], []⟩
  | (src, out) :: rest =>
    let acc := collectFold token rest
    match out with
    | .ok posts =>
      ⟨(src, statusFor token src (.ok posts)) :: acc.statuses, posts ++ acc.posts, acc.errors⟩
    | .error msg =>
      ⟨(src, "error") :: acc.statuses, acc.posts, (src, msg) :: acc.errors⟩

/-- Result record of `collect_customer_voice_signals` (`errors or None`). -/
structure CollectResult where
  posts : List PyDict
  insights : PmfInsights
  errors : Option (List (String × String))

/-- Orchestration `collect_customer_voice_signals`: fold the fetcher task
outcomes, score every collected post, stable-sort descending by
`(signal_score, engagement)`, aggregate, and return posts, insights and the
error mapping (`None` when empty). -/
noncomputable def collect_customer_voice_signals (token : Option String)
    (outcomes : List (String × Except String (List PyDict))) : CollectResult :=
  let acc := collectFold token outcomes
  let scored := sortDesc (acc.posts.map _score_post_signal)
  { posts := scored
    insights := _aggregate_pmf_signals scored acc.statuses
    errors := if acc.errors.isEmpty then none else some acc.errors }

lemma floor_le_pyRound (x : ℝ) : ⌊x⌋ ≤ pyRound x := by
  unfold pyRound
  split_ifs with h h2
  · exact le_refl _
  · omega
  · rw [round_eq]
    exact Int.floor_le_floor (by linarith)

lemma pyRound_le_ceil (x : ℝ) : pyRound x ≤ ⌈x⌉ := by
  unfold pyRound
  split_ifs with h h2
  · exact Int.floor_le_ceil x
  · have hx : (⌊x⌋ : ℝ) < x := by
      unfold Int.fract at h
      have hne : x ≠ (⌊x⌋ : ℝ) := by
        intro hxx
        rw [hxx] at h
        norm_num at h
      cases lt_or_eq_of_le (Int.floor_le x) with
      | inl hlt => exact hlt
      | inr heq => exact absurd heq.symm hne
    have hc : ⌊x⌋ < ⌈x⌉ := Int.lt_ceil.mpr hx
    omega
  · rw [round_eq]
    have h1 : x ≤ (⌈x⌉ : ℝ) := Int.le_ceil x
    have h2 : ⌊x + 1 / 2⌋ < ⌈x⌉ + 1 := by
      apply Int.floor_lt.mpr
      push_cast
      linarith
    omega

lemma pyRound_nonneg {x : ℝ} (h : 0 ≤ x) : 0 ≤ pyRound x := by
  have h1 : (0 : ℤ) ≤ ⌊x⌋ := Int.le_floor.mpr (by exact_mod_cast h)
  exact le_trans h1 (floor_le_pyRound x)

lemma pyRound_le_intCast {x : ℝ} {n : ℤ} (h : x ≤ (n : ℝ)) : pyRound x ≤ n :=
  le_trans (pyRound_le_ceil x) (Int.ceil_le.mpr h)

lemma pyRound4_nonneg {x : ℝ} (h : 0 ≤ x) : 0 ≤ pyRound4 x := by
  unfold pyRound4
  have ha : 0 ≤ pyRound (x * 10000) := pyRound_nonneg (by linarith)
  apply div_nonneg _ (by norm_num)
  exact_mod_cast ha

lemma pyRound4_le_one {x : ℝ} (h : x ≤ 1) : pyRound4 x ≤ 1 := by
  unfold pyRound4
  have hb : pyRound (x * 10000) ≤ (10000 : ℤ) :=
    pyRound_le_intCast (by push_cast; linarith)
  rw [div_le_one (by norm_num)]
  exact_mod_cast hb

lemma engagementBoost_nonneg (e : ℤ) : 0 ≤ engagementBoost e := by
  unfold engagementBoost
  apply le_min (by norm_num)
  apply div_nonneg _ (by norm_num)
  apply Real.log_nonneg
  have hmax : (0 : ℝ) ≤ ((max 0 e : ℤ) : ℝ) := by exact_mod_cast le_max_left 0 e
  linarith

lemma engagementBoost_le_cap (e : ℤ) : engagementBoost e ≤ 0.25 := min_le_left _ _

lemma min_one_nonneg {y : ℝ} (h : 0 ≤ y) : (0 : ℝ) ≤ min 1.0 y :=
  le_min (by norm_num) h

lemma rawScore_nonneg (post : PyDict) : 0 ≤ rawScore post := by
  unfold rawScore
  have h1 : (0 : ℝ) ≤ min 1.0 ((painHits post : ℝ) / 2) := min_one_nonneg (by positivity)
  have h2 : (0 : ℝ) ≤ min 1.0 ((intentHits post : ℝ) / 2) := min_one_nonneg (by positivity)
  have h3 : (0 : ℝ) ≤ min 1.0 ((buyingHits post : ℝ) / 1) := min_one_nonneg (by positivity)
  have h4 : (0 : ℝ) ≤ min 1.0 ((switchHits post : ℝ) / 1) := min_one_nonneg (by positivity)
  have h5 := engagementBoost_nonneg (engagementOf post)
  linarith

lemma clampedScore_nonneg (post : PyDict) : 0 ≤ clampedScore post :=
  le_min (by norm_num) (rawScore_nonneg post)

lemma clampedScore_le_one (post : PyDict) : clampedScore post ≤ 1 := by
  unfold clampedScore
  exact min_le_of_left_le (by norm_num)

/-- C1: the scorer stores `signal_score` as the four-decimal rounding of the
clamped weighted sum of the saturating normalised keyword hit counts plus the
logarithmic engagement boost, the stored hit counts are the distinct-phrase
substring counts over the concatenated title-and-text, and the resulting
score always lies in [0, 1]. -/
theorem signal_score_formula_and_range (post : PyDict) :
    sigOf (_score_post_signal post)
        = pyRound4 (min 1.0
            ((0.35 * min 1.0 ((painHits post : ℝ) / 2))
              + (0.25 * min 1.0 ((intentHits post : ℝ) / 2))
              + (0.25 * min 1.0 ((buyingHits post : ℝ) / 1))
              + (0.15 * min 1.0 ((switchHits post : ℝ) / 1))
              + min 0.25 (Real.log (1 + ((max 0 (engagementOf post) : ℤ) : ℝ)) / 18)))
      ∧ intFieldOf (_score_post_signal post) "pain_hits"
          = _contains_any_phrase (matchText post) PAIN_KEYWORDS
      ∧ intFieldOf (_score_post_signal post) "intent_hits"
          = _contains_any_phrase (matchText post) INTENT_KEYWORDS
      ∧ intFieldOf (_score_post_signal post) "buying_hits"
          = _contains_any_phrase (matchText post) BUYING_KEYWORDS
      ∧ intFieldOf (_score_post_signal post) "switch_hits"
          = _contains_any_phrase (matchText post) SWITCH_KEYWORDS
      ∧ 0 ≤ sigOf (_score_post_signal post) ∧ sigOf (_score_post_signal post) ≤ 1 := by
  have heq : sigOf (_score_post_signal post) = pyRound4 (clampedScore post) := rfl
  refine ⟨rfl, rfl, rfl, rfl, rfl, ?_, ?_⟩
  · rw [heq]
    exact pyRound4_nonneg (clampedScore_nonneg post)
  · rw [heq]
    exact pyRound4_le_one (clampedScore_le_one post)

/-- C8: for engagement counts 0 ≤ e1 ≤ e2 the engagement boost is monotone
non-decreasing and never exceeds 0.25. -/
theorem engagement_boost_monotone_and_capped (e1 e2 : ℤ) (h0 : 0 ≤ e1) (h12 : e1 ≤ e2) :
    engagementBoost e1 ≤ engagementBoost e2
      ∧ engagementBoost e1 ≤ 0.25 ∧ engagementBoost e2 ≤ 0.25 := by
  refine ⟨?_, engagementBoost_le_cap e1, engagementBoost_le_cap e2⟩
  unfold engagementBoost
  apply min_le_min (le_refl _)
  rw [div_le_div_iff_of_pos_right (by norm_num)]
  apply Real.log_le_log
  · have hmax : (0 : ℝ) ≤ ((max 0 e1 : ℤ) : ℝ) := by exact_mod_cast le_max_left 0 e1
    linarith
  · have hm : max 0 e1 ≤ max 0 e2 := by omega
    have hm2 : ((max 0 e1 : ℤ) : ℝ) ≤ ((max 0 e2 : ℤ) : ℝ) := by exact_mod_cast hm
    linarith

/-- Witness for C8 at the engagement counts 1 and 2. -/
theorem engagement_boost_monotone_and_capped_witness :
    (0 : ℤ) ≤ 1 ∧ (1 : ℤ) ≤ 2 ∧
      (engagementBoost 1 ≤ engagementBoost 2
        ∧ engagementBoost 1 ≤ 0.25 ∧ engagementBoost 2 ≤ 0.25) :=
  ⟨by norm_num, by norm_num,
    engagement_boost_monotone_and_capped 1 2 (by norm_num) (by norm_num)⟩

/-- C4: aggregating an empty scored-post list yields score 0, level
`insufficient_data`, the fixed summary sentence, all-zero counts, the status
mapping echoed unchanged, and no snippets, for every status mapping. -/
theorem aggregate_empty_result (statuses : List (String × String)) :
    _aggregate_pmf_signals [] statuses =
      { pmf_signal_score := 0
        signal_level := "insufficient_data"
        summary := "No social signal posts were collected."
        counts := ⟨0, 0, 0, 0, 0⟩
        source_status := statuses
        top_pain_snippets := [] } := rfl

lemma avgSignal_mem_Icc {posts : List PyDict} (hne : posts ≠ [])
    (hb : ∀ p ∈ posts, 0 ≤ sigOf p ∧ sigOf p ≤ 1) :
    0 ≤ avgSignal posts ∧ avgSignal posts ≤ 1 := by
  unfold avgSignal
  have hlen : (0 : ℝ) < (posts.length : ℝ) := by
    have hp : 0 < posts.length := List.length_pos.mpr hne
    exact_mod_cast hp
  constructor
  · apply div_nonneg _ (le_of_lt hlen)
    apply List.sum_nonneg
    intro x hx
    obtain ⟨p, hp, rfl⟩ := List.mem_map.mp hx
    exact (hb p hp).1
  · rw [div_le_one hlen]
    have hs : (posts.map sigOf).sum ≤ (posts.map sigOf).length • (1 : ℝ) := by
      apply List.sum_le_card_nsmul
      intro x hx
      obtain ⟨p, hp, rfl⟩ := List.mem_map.mp hx
      exact (hb p hp).2
    simpa [nsmul_eq_mul] using hs

lemma coverageOf_mem_Icc (statuses : List (String × String)) :
    0 ≤ coverageOf statuses ∧ coverageOf statuses ≤ 1 := by
  unfold coverageOf
  have hpos : (0 : ℝ) < ((max 1 statuses.length : ℕ) : ℝ) := by
    have hp : 0 < max 1 statuses.length := by omega
    exact_mod_cast hp
  constructor
  · apply div_nonneg _ (le_of_lt hpos)
    positivity
  · rw [div_le_one hpos]
    have h1 : (statuses.countP fun st => st.2 = "completed") ≤ statuses.length :=
      List.countP_le_length _
    have h2 : statuses.length ≤ max 1 statuses.length := le_max_right _ _
    exact_mod_cast le_trans h1 h2

lemma confidenceOf_mem_Icc (total : ℕ) (statuses : List (String × String)) :
    0 ≤ confidenceOf total statuses ∧ confidenceOf total statuses ≤ 1 := by
  unfold confidenceOf
  obtain ⟨hc0, hc1⟩ := coverageOf_mem_Icc statuses
  have hm0 : (0 : ℝ) ≤ min 1.0 ((total : ℝ) / 40) := le_min (by norm_num) (by positivity)
  have hm1 : min 1.0 ((total : ℝ) / 40) ≤ 1 := min_le_of_left_le (by norm_num)
  exact ⟨mul_nonneg hm0 hc0, mul_le_one₀ hm1 hc0 hc1⟩

lemma pmfScore_mem_Icc {posts : List PyDict} (statuses : List (String × String))
    (hne : posts ≠ []) (hb : ∀ p ∈ posts, 0 ≤ sigOf p ∧ sigOf p ≤ 1) :
    0 ≤ pmfScore posts statuses ∧ pmfScore posts statuses ≤ 100 := by
  unfold pmfScore
  obtain ⟨ha0, ha1⟩ := avgSignal_mem_Icc hne hb
  obtain ⟨hc0, hc1⟩ := confidenceOf_mem_Icc posts.length statuses
  constructor
  · exact pyRound_nonneg (by nlinarith)
  · apply pyRound_le_intCast
    push_cast
    nlinarith

lemma signalLevel_iff (pmf : ℤ) :
    (signalLevel pmf = "strong" ↔ 70 ≤ pmf)
      ∧ (signalLevel pmf = "moderate" ↔ 45 ≤ pmf ∧ pmf < 70)
      ∧ (signalLevel pmf = "weak" ↔ pmf < 45)
      ∧ signalLevel pmf ≠ "insufficient_data" := by
  unfold signalLevel
  by_cases h1 : 70 ≤ pmf
  · rw [if_pos h1]
    refine ⟨⟨fun _ => h1, fun _ => rfl⟩, ?_, ?_, by decide⟩
    · exact ⟨fun h => absurd h (by decide), fun h => absurd h1 (by omega)⟩
    · exact ⟨fun h => absurd h (by decide), fun h => absurd h1 (by omega)⟩
  · by_cases h2 : 45 ≤ pmf
    · rw [if_neg h1, if_pos h2]
      refine ⟨?_, ⟨fun _ => ⟨h2, by omega⟩, fun _ => rfl⟩, ?_, by decide⟩
      · exact ⟨fun h => absurd h (by decide), fun h => absurd h h1⟩
      · exact ⟨fun h => absurd h (by decide), fun h => absurd h (by omega)⟩
    · rw [if_neg h1, if_neg h2]
      refine ⟨?_, ?_, ⟨fun _ => by omega, fun _ => rfl⟩, by decide⟩
      · exact ⟨fun h => absurd h (by decide), fun h => absurd h h1⟩
      · exact ⟨fun h => absurd h (by decide), fun h => absurd h.1 h2⟩

lemma isEmpty_false_of_ne_nil {posts : List PyDict} (hne : posts ≠ []) :
    ¬ (posts.isEmpty = true) := by
  simpa [List.isEmpty_iff] using hne

lemma aggregate_pmf_eq {posts : List PyDict} (statuses : List (String × String))
    (hne : posts ≠ []) :
    (_aggregate_pmf_signals posts statuses).pmf_signal_score = pmfScore posts statuses := by
  unfold _aggregate_pmf_signals
  rw [if_neg (isEmpty_false_of_ne_nil hne)]

lemma aggregate_level_eq {posts : List PyDict} (statuses : List (String × String))
    (hne : posts ≠ []) :
    (_aggregate_pmf_signals posts statuses).signal_level
      = signalLevel (pmfScore posts statuses) := by
  unfold _aggregate_pmf_signals
  rw [if_neg (isEmpty_false_of_ne_nil hne)]

lemma aggregate_snippets_eq {posts : List PyDict} (statuses : List (String × String))
    (hne : posts ≠ []) :
    (_aggregate_pmf_signals posts statuses).top_pain_snippets = topPainSnippets posts := by
  unfold _aggregate_pmf_signals
  rw [if_neg (isEmpty_false_of_ne_nil hne)]

lemma coverage_attempted_form (statuses : List (String × String)) :
    coverageOf statuses
      = (if statuses.length = 0 then 0 else
          ((statuses.countP fun st => st.2 = "completed") : ℝ) / (statuses.length : ℝ)) := by
  unfold coverageOf
  rcases statuses with _ | ⟨st, rest⟩
  · simp
  · rw [if_neg (by simp)]
    have hmax : max 1 (st :: rest).length = (st :: rest).length := by
      simp only [List.length_cons]
      omega
    rw [hmax]

/-- C2: for non-empty scored input the aggregator computes coverage as
completed-over-attempted (empty attempts giving 0), confidence as
`min(1, total/40) * coverage`, the PMF score as the banker's rounding of
`100 * (0.7 * avg_signal + 0.3 * confidence)` lying in [0, 100], and the
level thresholds are ≥ 70 strong, ≥ 45 moderate, otherwise weak, with
`insufficient_data` never produced. -/
theorem aggregate_nonempty_spec (posts : List PyDict) (statuses : List (String × String))
    (hne : posts ≠ []) (hb : ∀ p ∈ posts, 0 ≤ sigOf p ∧ sigOf p ≤ 1) :
    (_aggregate_pmf_signals posts statuses).pmf_signal_score
        = pyRound (100 * (0.7 * avgSignal posts + 0.3 * confidenceOf posts.length statuses))
      ∧ avgSignal posts = (posts.map sigOf).sum / (posts.length : ℝ)
      ∧ confidenceOf posts.length statuses
          = min 1.0 ((posts.length : ℝ) / 40) * coverageOf statuses
      ∧ coverageOf statuses
          = (if statuses.length = 0 then 0 else
              ((statuses.countP fun st => st.2 = "completed") : ℝ) / (statuses.length : ℝ))
      ∧ 0 ≤ (_aggregate_pmf_signals posts statuses).pmf_signal_score
      ∧ (_aggregate_pmf_signals posts statuses).pmf_signal_score ≤ 100
      ∧ ((_aggregate_pmf_signals posts statuses).signal_level = "strong"
          ↔ 70 ≤ (_aggregate_pmf_signals posts statuses).pmf_signal_score)
      ∧ ((_aggregate_pmf_signals posts statuses).signal_level = "moderate"
          ↔ 45 ≤ (_aggregate_pmf_signals posts statuses).pmf_signal_score
              ∧ (_aggregate_pmf_signals posts statuses).pmf_signal_score < 70)
      ∧ ((_aggregate_pmf_signals posts statuses).signal_level = "weak"
          ↔ (_aggregate_pmf_signals posts statuses).pmf_signal_score < 45)
      ∧ (_aggregate_pmf_signals posts statuses).signal_level ≠ "insufficient_data" := by
  have hpmf := aggregate_pmf_eq statuses hne
  have hlev := aggregate_level_eq statuses hne
  obtain ⟨hs0, hs100⟩ := pmfScore_mem_Icc statuses hne hb
  obtain ⟨hl1, hl2, hl3, hl4⟩ := signalLevel_iff (pmfScore posts statuses)
  rw [hpmf, hlev]
  exact ⟨rfl, rfl, rfl, coverage_attempted_form statuses, hs0, hs100, hl1, hl2, hl3, hl4⟩

/-- Concrete scored-post dictionary used by witnesses: carries a signal
score, an engagement counter, a pain hit count, and a text body. -/
def mkScored (score : ℝ) (eng : ℤ) (pain : ℤ) (text : String) : PyDict :=
  fun k =>
    if k = "signal_score" then some (.vReal score)
    else if k = "engagement" then some (.vInt eng)
    else if k = "pain_hits" then some (.vInt pain)
    else if k = "text" then some (.vStr text)
    else none

/-- Witness posts for the non-empty aggregation theorem. -/
noncomputable def w2posts : List PyDict := [mkScored (1 / 2) 3 1 "slow tool"]

/-- Witness status mapping for the non-empty aggregation theorem. -/
def w2statuses : List (String × String) := [("reddit", "completed")]

/-- Witness for C2 at a one-post list with score 1/2. -/
theorem aggregate_nonempty_spec_witness :
    w2posts ≠ [] ∧ (∀ p ∈ w2posts, 0 ≤ sigOf p ∧ sigOf p ≤ 1) ∧
      ((_aggregate_pmf_signals w2posts w2statuses).pmf_signal_score
          = pyRound (100 * (0.7 * avgSignal w2posts + 0.3 * confidenceOf w2posts.length w2statuses))
        ∧ avgSignal w2posts = (w2posts.map sigOf).sum / (w2posts.length : ℝ)
        ∧ confidenceOf w2posts.length w2statuses
            = min 1.0 ((w2posts.length : ℝ) / 40) * coverageOf w2statuses
        ∧ coverageOf w2statuses
            = (if w2statuses.length = 0 then 0 else
                ((w2statuses.countP fun st => st.2 = "completed") : ℝ) / (w2statuses.length : ℝ))
        ∧ 0 ≤ (_aggregate_pmf_signals w2posts w2statuses).pmf_signal_score
        ∧ (_aggregate_pmf_signals w2posts w2statuses).pmf_signal_score ≤ 100
        ∧ ((_aggregate_pmf_signals w2posts w2statuses).signal_level = "strong"
            ↔ 70 ≤ (_aggregate_pmf_signals w2posts w2statuses).pmf_signal_score)
        ∧ ((_aggregate_pmf_signals w2posts w2statuses).signal_level = "moderate"
            ↔ 45 ≤ (_aggregate_pmf_signals w2posts w2statuses).pmf_signal_score
                ∧ (_aggregate_pmf_signals w2posts w2statuses).pmf_signal_score < 70)
        ∧ ((_aggregate_pmf_signals w2posts w2statuses).signal_level = "weak"
            ↔ (_aggregate_pmf_signals w2posts w2statuses).pmf_signal_score < 45)
        ∧ (_aggregate_pmf_signals w2posts w2statuses).signal_level ≠ "insufficient_data") := by
  have h1 : w2posts ≠ [] := by simp [w2posts]
  have h2 : ∀ p ∈ w2posts, 0 ≤ sigOf p ∧ sigOf p ≤ 1 := by
    intro p hp
    simp only [w2posts, List.mem_singleton] at hp
    subst hp
    have hs : sigOf (mkScored (1 / 2) 3 1 "slow tool") = 1 / 2 := rfl
    rw [hs]
    norm_num
  exact ⟨h1, h2, aggregate_nonempty_spec w2posts w2statuses h1 h2⟩

lemma mem_sortDesc {l : List PyDict} {p : PyDict} : p ∈ sortDesc l ↔ p ∈ l :=
  (List.mergeSort_perm l _).mem_iff

lemma snippet_length_le (text : String) : (_snippet text 180).length ≤ 180 := by
  unfold _snippet
  split_ifs with h
  · exact h
  · push_neg at h
    simp only [String.length, String.append, List.length_append, List.length_take]
    have h3 : ("...".data : List Char).length = 3 := rfl
    rw [h3]
    omega

/-- C3 (amended): the snippet list arises by filtering to positive
`pain_hits`, stable-sorting descending by `(signal_score, engagement)`,
taking the first 8, then dropping empty-text posts and rendering; hence it
has length at most 8, every entry stems from a post with positive
`pain_hits` and non-empty text, and every snippet is at most 180 characters
(longer compacted texts are cut at 177 characters plus an ellipsis). -/
theorem top_pain_snippets_spec (posts : List PyDict) (statuses : List (String × String))
    (hne : posts ≠ []) :
    (_aggregate_pmf_signals posts statuses).top_pain_snippets
        = (((sortDesc (posts.filter fun p => 0 < intFieldOf p "pain_hits")).take 8).filter
            fun p => textOf p ≠ "").map (fun p =>
              { source := (p "source").getD .vNull
                url := (p "url").getD .vNull
                snippet := _snippet (textOf p) 180
                signal_score := (p "signal_score").getD .vNull })
      ∧ (_aggregate_pmf_signals posts statuses).top_pain_snippets.length ≤ 8
      ∧ (∀ s ∈ (_aggregate_pmf_signals posts statuses).top_pain_snippets,
          ∃ p, p ∈ posts ∧ 0 < intFieldOf p "pain_hits" ∧ textOf p ≠ ""
            ∧ s = { source := (p "source").getD .vNull
                    url := (p "url").getD .vNull
                    snippet := _snippet (textOf p) 180
                    signal_score := (p "signal_score").getD .vNull })
      ∧ (∀ s ∈ (_aggregate_pmf_signals posts statuses).top_pain_snippets,
          s.snippet.length ≤ 180) := by
  have hsn := aggregate_snippets_eq statuses hne
  rw [hsn]
  have hform : topPainSnippets posts
      = (((sortDesc (posts.filter fun p => 0 < intFieldOf p "pain_hits")).take 8).filter
          fun p => textOf p ≠ "").map (fun p =>
            { source := (p "source").getD .vNull
              url := (p "url").getD .vNull
              snippet := _snippet (textOf p) 180
              signal_score := (p "signal_score").getD .vNull }) := rfl
  refine ⟨hform, ?_, ?_, ?_⟩
  · rw [hform]
    calc ((((sortDesc (posts.filter fun p => 0 < intFieldOf p "pain_hits")).take 8).filter
          fun p => textOf p ≠ "").map _).length
        = (((sortDesc (posts.filter fun p => 0 < intFieldOf p "pain_hits")).take 8).filter
            fun p => textOf p ≠ "").length := List.length_map _ _
      _ ≤ ((sortDesc (posts.filter fun p => 0 < intFieldOf p "pain_hits")).take 8).length :=
          List.length_filter_le _ _
      _ ≤ 8 := by
          rw [List.length_take]
          omega
  · intro s hs
    rw [hform] at hs
    obtain ⟨p, hp, rfl⟩ := List.mem_map.mp hs
    obtain ⟨hptake, htext⟩ := List.mem_filter.mp hp
    have hmem : p ∈ sortDesc (posts.filter fun p => 0 < intFieldOf p "pain_hits") :=
      List.mem_of_mem_take hptake
    have hmem2 : p ∈ posts.filter fun p => 0 < intFieldOf p "pain_hits" :=
      mem_sortDesc.mp hmem
    obtain ⟨hpost, hpain⟩ := List.mem_filter.mp hmem2
    refine ⟨p, hpost, by simpa using hpain, by simpa using htext, rfl⟩
  · intro s hs
    rw [hform] at hs
    obtain ⟨p, hp, rfl⟩ := List.mem_map.mp hs
    exact snippet_length_le (textOf p)

/-- Witness for C3 at a one-post list. -/
theorem top_pain_snippets_spec_witness :
    w2posts ≠ [] ∧
      ((_aggregate_pmf_signals w2posts w2statuses).top_pain_snippets
          = (((sortDesc (w2posts.filter fun p => 0 < intFieldOf p "pain_hits")).take 8).filter
              fun p => textOf p ≠ "").map (fun p =>
                { source := (p "source").getD .vNull
                  url := (p "url").getD .vNull
                  snippet := _snippet (textOf p) 180
                  signal_score := (p "signal_score").getD .vNull })
        ∧ (_aggregate_pmf_signals w2posts w2statuses).top_pain_snippets.length ≤ 8
        ∧ (∀ s ∈ (_aggregate_pmf_signals w2posts w2statuses).top_pain_snippets,
            ∃ p, p ∈ w2posts ∧ 0 < intFieldOf p "pain_hits" ∧ textOf p ≠ ""
              ∧ s = { source := (p "source").getD .vNull
                      url := (p "url").getD .vNull
                      snippet := _snippet (textOf p) 180
                      signal_score := (p "signal_score").getD .vNull })
        ∧ (∀ s ∈ (_aggregate_pmf_signals w2posts w2statuses).top_pain_snippets,
            s.snippet.length ≤ 180)) := by
  have h1 : w2posts ≠ [] := by simp [w2posts]
  exact ⟨h1, top_pain_snippets_spec w2posts w2statuses h1⟩

/-- Key set of the six fields the scorer adds. -/
def signalFieldKeys : List String :=
  ["signal_score", "signal_labels", "pain_hits", "intent_hits", "buying_hits", "switch_hits"]

/-- C9: on a post whose keys avoid the six signal fields, scoring preserves
every present key with its original value, adds all six signal fields, and
maps every key outside the six identically — in particular a key absent from
the input and outside the six stays absent, so nothing but the six signal
fields is added or modified. -/
theorem score_post_frame (post : PyDict)
    (hdisj : ∀ k ∈ signalFieldKeys, post k = none) :
    (∀ k, post k ≠ none → _score_post_signal post k = post k)
      ∧ (∀ k, k ∉ signalFieldKeys → _score_post_signal post k = post k)
      ∧ (∀ k ∈ signalFieldKeys, _score_post_signal post k ≠ none) := by
  have hout : ∀ k, k ∉ signalFieldKeys → _score_post_signal post k = post k := by
    intro k hk
    unfold _score_post_signal
    split_ifs with h1 h2 h3 h4 h5 h6
    · subst h1
      exact absurd (by simp [signalFieldKeys]) hk
    · subst h2
      exact absurd (by simp [signalFieldKeys]) hk
    · subst h3
      exact absurd (by simp [signalFieldKeys]) hk
    · subst h4
      exact absurd (by simp [signalFieldKeys]) hk
    · subst h5
      exact absurd (by simp [signalFieldKeys]) hk
    · subst h6
      exact absurd (by simp [signalFieldKeys]) hk
    · rfl
  refine ⟨?_, hout, ?_⟩
  · intro k hk
    by_cases hmem : k ∈ signalFieldKeys
    · exact absurd (hdisj k hmem) hk
    · exact hout k hmem
  · intro k hk
    fin_cases hk <;> simp [_score_post_signal]

/-- Witness post for the frame theorem: a single `text` key. -/
def w9post : PyDict := fun k => if k = "text" then some (.vStr "hello") else none

/-- Witness for C9 at a post carrying only a `text` key. -/
theorem score_post_frame_witness :
    (∀ k ∈ signalFieldKeys, w9post k = none) ∧
      ((∀ k, w9post k ≠ none → _score_post_signal w9post k = w9post k)
        ∧ (∀ k, k ∉ signalFieldKeys → _score_post_signal w9post k = w9post k)
        ∧ (∀ k ∈ signalFieldKeys, _score_post_signal w9post k ≠ none)) := by
  have hd : ∀ k ∈ signalFieldKeys, w9post k = none := by
    intro k hk
    fin_cases hk <;> rfl
  exact ⟨hd, score_post_frame w9post hd⟩

/-- Counterexample post list: nine pain posts with equal scores and strictly
decreasing engagement; the top-ranked post has empty text, the other eight
have non-empty text. -/
noncomputable def c3posts : List PyDict :=
  [mkScored (1 / 2) 9 1 "", mkScored (1 / 2) 8 1 "t1", mkScored (1 / 2) 7 1 "t2",
   mkScored (1 / 2) 6 1 "t3", mkScored (1 / 2) 5 1 "t4", mkScored (1 / 2) 4 1 "t5",
   mkScored (1 / 2) 3 1 "t6", mkScored (1 / 2) 2 1 "t7", mkScored (1 / 2) 1 1 "t8"]

lemma c3posts_filter_pain :
    c3posts.filter (fun p => 0 < intFieldOf p "pain_hits") = c3posts := by
  apply List.filter_eq_self.mpr
  intro a ha
  fin_cases ha <;> rfl

open Classical in
lemma c3posts_sortDesc : sortDesc c3posts = c3posts := by
  apply List.mergeSort_of_sorted
  unfold c3posts
  refine List.Pairwise.cons ?_ (List.Pairwise.cons ?_ (List.Pairwise.cons ?_
    (List.Pairwise.cons ?_ (List.Pairwise.cons ?_ (List.Pairwise.cons ?_
      (List.Pairwise.cons ?_ (List.Pairwise.cons ?_ (List.Pairwise.cons ?_
        List.Pairwise.nil)))))))) <;>
  · intro b hb
    fin_cases hb <;> exact decide_eq_true (Or.inr ⟨rfl, by decide⟩)

lemma c3posts_snippets_length : (topPainSnippets c3posts).length = 7 := by
  unfold topPainSnippets topPainPosts
  rw [c3posts_filter_pain, c3posts_sortDesc]
  rfl

/-- Counterexample to C3 as stated: at least eight of the posts have positive
`pain_hits` and non-empty text, yet the snippet list has only seven entries,
because the code drops empty-text posts only after truncating to the top 8. -/
theorem top_pain_snippets_counterexample :
    8 ≤ (c3posts.countP fun p => decide (0 < intFieldOf p "pain_hits" ∧ textOf p ≠ ""))
      ∧ (_aggregate_pmf_signals c3posts [("reddit", "completed")]).top_pain_snippets.length
          ≠ 8 := by
  constructor
  · decide
  · have hne3 : c3posts ≠ [] := by simp [c3posts]
    rw [aggregate_snippets_eq _ hne3, c3posts_snippets_length]
    norm_num

/-- Posts contributed by one task outcome: an exception contributes none. -/
def okListOf : Except String (List PyDict) → List PyDict
  | .ok l => l
  | .error _ => []

lemma collectFold_statuses (token : Option String)
    (outcomes : List (String × Except String (List PyDict))) :
    (collectFold token outcomes).statuses
      = outcomes.map (fun p => (p.1, statusFor token p.1 p.2)) := by
  induction outcomes with
  | nil => rfl
  | cons hd tl ih =>
    obtain ⟨src, out⟩ := hd
    cases out with
    | ok l => simp [collectFold, ih, statusFor]
    | error m => simp [collectFold, ih, statusFor]

lemma collectFold_posts (token : Option String)
    (outcomes : List (String × Except String (List PyDict))) :
    (collectFold token outcomes).posts = (outcomes.map fun p => okListOf p.2).flatten := by
  induction outcomes with
  | nil => rfl
  | cons hd tl ih =>
    obtain ⟨src, out⟩ := hd
    cases out with
    | ok l => simp [collectFold, ih, okListOf]
    | error m => simp [collectFold, ih, okListOf]

lemma collectFold_errors (token : Option String)
    (outcomes : List (String × Except String (List PyDict))) :
    (collectFold token outcomes).errors
      = outcomes.filterMap (fun p =>
          match p.2 with
          | .error m => some (p.1, m)
          | .ok _ => none) := by
  induction outcomes with
  | nil => rfl
  | cons hd tl ih =>
    obtain ⟨src, out⟩ := hd
    cases out with
    | ok l => simp [collectFold, ih]
    | error m => simp [collectFold, ih]

lemma lookup_map_of_mem {β : Type} (f : String → Except String (List PyDict) → β)
    {outcomes : List (String × Except String (List PyDict))} {src : String}
    {out : Except String (List PyDict)}
    (hnd : (outcomes.map Prod.fst).Nodup) (hmem : (src, out) ∈ outcomes) :
    (outcomes.map fun p => (p.1, f p.1 p.2)).lookup src = some (f src out) := by
  induction outcomes with
  | nil => cases hmem
  | cons hd tl ih =>
    rw [List.map_cons, List.nodup_cons] at hnd
    rcases List.mem_cons.mp hmem with heq | htl
    · rw [← heq]
      simp [List.lookup]
    · have hne : (src == hd.1) = false := by
        apply beq_false_of_ne
        intro h
        apply hnd.1
        rw [h] at htl
        exact List.mem_map.mpr ⟨(hd.1, out), htl, rfl⟩
      rw [List.map_cons]
      simp only [List.lookup, hne]
      exact ih hnd.2 htl

lemma mem_same_key_eq {l : List (String × Except String (List PyDict))}
    (hnd : (l.map Prod.fst).Nodup) {p q : String × Except String (List PyDict)}
    (hp : p ∈ l) (hq : q ∈ l) (hk : p.1 = q.1) : p = q := by
  induction l with
  | nil => cases hp
  | cons hd tl ih =>
    rw [List.map_cons, List.nodup_cons] at hnd
    rcases List.mem_cons.mp hp with rfl | hp2
    · rcases List.mem_cons.mp hq with rfl | hq2
      · rfl
      · exact absurd (hk ▸ List.mem_map_of_mem Prod.fst hq2) hnd.1
    · rcases List.mem_cons.mp hq with rfl | hq2
      · exact absurd (hk ▸ List.mem_map_of_mem Prod.fst hp2) hnd.1
      · exact ih hnd.2 hp2 hq2

lemma flatten_filter_of_key_nil {outcomes : List (String × Except String (List PyDict))}
    {src : String} (h : ∀ p ∈ outcomes, p.1 = src → okListOf p.2 = []) :
    (outcomes.map fun p => okListOf p.2).flatten
      = ((outcomes.filter fun p => p.1 ≠ src).map fun p => okListOf p.2).flatten := by
  induction outcomes with
  | nil => rfl
  | cons hd tl ih =>
    have htl := ih (fun p hp hpk => h p (List.mem_cons_of_mem hd hp) hpk)
    by_cases hk : hd.1 = src
    · have hnil : okListOf hd.2 = [] := h hd (List.mem_cons_self hd tl) hk
      simp [List.filter_cons, hk, hnil, htl]
    · simp [List.filter_cons, hk, htl]

lemma collectFold_errors_lookup (token : Option String)
    {outcomes : List (String × Except String (List PyDict))} {src msg : String}
    (hnd : (outcomes.map Prod.fst).Nodup)
    (hmem : (src, Except.error msg) ∈ outcomes) :
    (collectFold token outcomes).errors.lookup src = some msg := by
  induction outcomes with
  | nil => cases hmem
  | cons hd tl ih =>
    obtain ⟨k, v⟩ := hd
    rw [List.map_cons, List.nodup_cons] at hnd
    rcases List.mem_cons.mp hmem with heq | htl
    · cases heq
      simp [collectFold, List.lookup]
    · have hkne : (src == k) = false := by
        apply beq_false_of_ne
        intro h
        apply hnd.1
        rw [h] at htl
        exact List.mem_map.mpr ⟨(k, Except.error msg), htl, rfl⟩
      cases v with
      | ok l =>
        simp only [collectFold]
        exact ih hnd.2 htl
      | error m2 =>
        simp only [collectFold, List.lookup, hkne]
        exact ih hnd.2 htl

/-- C6: when exactly one source's task raises, that source's status is
`error`, its message is recorded under it in the errors mapping, it
contributes no posts while every other source's posts are kept, and the call
still scores, sorts, aggregates and returns the remaining posts. -/
theorem source_error_isolated (token : Option String)
    (outcomes : List (String × Except String (List PyDict))) (src msg : String)
    (hnd : (outcomes.map Prod.fst).Nodup)
    (hmem : (src, Except.error msg) ∈ outcomes)
    (hok : ∀ p ∈ outcomes, p.1 ≠ src → ∃ l, p.2 = Except.ok l) :
    (collectFold token outcomes).statuses.lookup src = some "error"
      ∧ (collectFold token outcomes).errors.lookup src = some msg
      ∧ (collectFold token outcomes).posts
          = ((outcomes.filter fun p => p.1 ≠ src).map fun p => okListOf p.2).flatten
      ∧ (collect_customer_voice_signals token outcomes).posts
          = sortDesc (((collectFold token outcomes).posts).map _score_post_signal)
      ∧ (collect_customer_voice_signals token outcomes).insights
          = _aggregate_pmf_signals (collect_customer_voice_signals token outcomes).posts
              (collectFold token outcomes).statuses
      ∧ (collect_customer_voice_signals token outcomes).errors
          = some (collectFold token outcomes).errors := by
  have hstat : (collectFold token outcomes).statuses.lookup src = some "error" := by
    rw [collectFold_statuses]
    exact lookup_map_of_mem (statusFor token) hnd hmem
  have herr := collectFold_errors_lookup token hnd hmem
  have hposts : (collectFold token outcomes).posts
      = ((outcomes.filter fun p => p.1 ≠ src).map fun p => okListOf p.2).flatten := by
    rw [collectFold_posts]
    apply flatten_filter_of_key_nil
    intro p hp hpk
    have hpe : p = (src, Except.error msg) := mem_same_key_eq hnd hp hmem hpk
    rw [hpe]
    rfl
  have hENE : (collectFold token outcomes).errors.isEmpty = false := by
    cases hE : (collectFold token outcomes).errors with
    | nil => rw [hE] at herr; simp [List.lookup] at herr
    | cons a l => rfl
  refine ⟨hstat, herr, hposts, rfl, rfl, ?_⟩
  simp [collect_customer_voice_signals, hENE]

/-- Witness post carried by the healthy source in the C6 witness. -/
def w6post : PyDict := fun k => if k = "text" then some (.vStr "hi") else none

/-- Witness task outcomes for C6: the microblog task raises, the other two
succeed. -/
def outcomes6 : List (String × Except String (List PyDict)) :=
  [("reddit", Except.ok [w6post]), ("x", Except.error "boom"), ("hackernews", Except.ok [])]

/-- Witness for C6 at three concrete task outcomes with one raising task. -/
theorem source_error_isolated_witness :
    ((outcomes6.map Prod.fst).Nodup
      ∧ ("x", Except.error "boom") ∈ outcomes6
      ∧ (∀ p ∈ outcomes6, p.1 ≠ "x" → ∃ l, p.2 = Except.ok l))
    ∧ ((collectFold (some "tok") outcomes6).statuses.lookup "x" = some "error"
      ∧ (collectFold (some "tok") outcomes6).errors.lookup "x" = some "boom"
      ∧ (collectFold (some "tok") outcomes6).posts
          = ((outcomes6.filter fun p => p.1 ≠ "x").map fun p => okListOf p.2).flatten
      ∧ (collect_customer_voice_signals (some "tok") outcomes6).posts
          = sortDesc (((collectFold (some "tok") outcomes6).posts).map _score_post_signal)
      ∧ (collect_customer_voice_signals (some "tok") outcomes6).insights
          = _aggregate_pmf_signals
              (collect_customer_voice_signals (some "tok") outcomes6).posts
              (collectFold (some "tok") outcomes6).statuses
      ∧ (collect_customer_voice_signals (some "tok") outcomes6).errors
          = some (collectFold (some "tok") outcomes6).errors) := by
  have hnd : (outcomes6.map Prod.fst).Nodup := by decide
  have hmem : ("x", Except.error "boom") ∈ outcomes6 :=
    List.mem_cons_of_mem _ (List.mem_cons_self _ _)
  have hok : ∀ p ∈ outcomes6, p.1 ≠ "x" → ∃ l, p.2 = Except.ok l := by
    intro p hp hne
    rcases List.mem_cons.mp hp with rfl | hp2
    · exact ⟨[w6post], rfl⟩
    rcases List.mem_cons.mp hp2 with rfl | hp3
    · exact absurd rfl hne
    rcases List.mem_cons.mp hp3 with rfl | hp4
    · exact ⟨[], rfl⟩
    · cases hp4
  exact ⟨⟨hnd, hmem, hok⟩, source_error_isolated (some "tok") outcomes6 "x" "boom" hnd hmem hok⟩

/-- C7: with the microblog credential absent, `search_x_posts` returns the
empty list whatever the would-be response payload is (the HTTP call is never
consulted), the orchestrator marks the source `disabled` (neither `error`
nor `completed`), records no error, and the call still returns the scored
and aggregated posts of all sources. -/
theorem x_token_missing_disabled (token : Option String) (payload : PVal)
    (limit : Option ℤ) (dflt : ℤ)
    (outcomes : List (String × Except String (List PyDict))) (l : List PyDict)
    (htok : tokenMissing token = true)
    (hnd : (outcomes.map Prod.fst).Nodup)
    (hmem : ("x", Except.ok l) ∈ outcomes)
    (hok : ∀ p ∈ outcomes, ∃ q, p.2 = Except.ok q) :
    search_x_posts token payload limit dflt = []
      ∧ (collectFold token outcomes).statuses.lookup "x" = some "disabled"
      ∧ (collectFold token outcomes).statuses.lookup "x" ≠ some "error"
      ∧ (collectFold token outcomes).statuses.lookup "x" ≠ some "completed"
      ∧ (collectFold token outcomes).errors = []
      ∧ (collect_customer_voice_signals token outcomes).errors = none
      ∧ (collect_customer_voice_signals token outcomes).posts
          = sortDesc (((collectFold token outcomes).posts).map _score_post_signal)
      ∧ (collectFold token outcomes).posts
          = (outcomes.map fun p => okListOf p.2).flatten := by
  have hsearch : search_x_posts token payload limit dflt = [] := by
    simp [search_x_posts, htok]
  have hstat : (collectFold token outcomes).statuses.lookup "x" = some "disabled" := by
    rw [collectFold_statuses]
    have hl := lookup_map_of_mem (statusFor token) hnd hmem
    rw [hl]
    simp [statusFor, htok]
  have herrs : (collectFold token outcomes).errors = [] := by
    rw [collectFold_errors]
    apply List.filterMap_eq_nil_iff.mpr
    intro p hp
    obtain ⟨q, hq⟩ := hok p hp
    rw [hq]
  refine ⟨hsearch, hstat, ?_, ?_, herrs, ?_, rfl, collectFold_posts token outcomes⟩
  · rw [hstat]
    simp
  · rw [hstat]
    simp
  · simp [collect_customer_voice_signals, herrs]

/-- Witness task outcomes for C7: both tasks succeed, the microblog one with
the empty list its credential-less fetch returns. -/
def outcomes7 : List (String × Except String (List PyDict)) :=
  [("reddit", Except.ok [w6post]), ("x", Except.ok [])]

/-- Witness for C7 at a missing token and two concrete task outcomes. -/
theorem x_token_missing_disabled_witness :
    (tokenMissing none = true
      ∧ (outcomes7.map Prod.fst).Nodup
      ∧ ("x", Except.ok ([] : List PyDict)) ∈ outcomes7
      ∧ (∀ p ∈ outcomes7, ∃ q, p.2 = Except.ok q))
    ∧ (search_x_posts none .vNull none 25 = []
      ∧ (collectFold none outcomes7).statuses.lookup "x" = some "disabled"
      ∧ (collectFold none outcomes7).statuses.lookup "x" ≠ some "error"
      ∧ (collectFold none outcomes7).statuses.lookup "x" ≠ some "completed"
      ∧ (collectFold none outcomes7).errors = []
      ∧ (collect_customer_voice_signals none outcomes7).errors = none
      ∧ (collect_customer_voice_signals none outcomes7).posts
          = sortDesc (((collectFold none outcomes7).posts).map _score_post_signal)
      ∧ (collectFold none outcomes7).posts
          = (outcomes7.map fun p => okListOf p.2).flatten) := by
  have htok : tokenMissing none = true := rfl
  have hnd : (outcomes7.map Prod.fst).Nodup := by decide
  have hmem : ("x", Except.ok ([] : List PyDict)) ∈ outcomes7 :=
    List.mem_cons_of_mem _ (List.mem_cons_self _ _)
  have hok : ∀ p ∈ outcomes7, ∃ q, p.2 = Except.ok q := by
    intro p hp
    rcases List.mem_cons.mp hp with rfl | hp2
    · exact ⟨[w6post], rfl⟩
    rcases List.mem_cons.mp hp2 with rfl | hp3
    · exact ⟨[], rfl⟩
    · cases hp3
  exact ⟨⟨htok, hnd, hmem, hok⟩,
    x_token_missing_disabled none .vNull none 25 outcomes7 [] htok hnd hmem hok⟩

/-- C5 (amended): every post any fetcher produces stores `engagement` as the
sum of its parsed raw counters (upvotes+comments, likes+replies+reposts+
quotes, points+comments respectively), so it is non-negative whenever each
parsed counter is; each counter parses through `_safe_int`, which yields the
default 0 on missing (`None`), unparsable-string, list and object values. -/
theorem fetcher_engagement_sum (payload : PVal) :
    (∀ p ∈ search_reddit_posts payload,
        intFieldOf p "engagement" = intFieldOf p "upvotes" + intFieldOf p "comments"
          ∧ (0 ≤ intFieldOf p "upvotes" → 0 ≤ intFieldOf p "comments" →
              0 ≤ intFieldOf p "engagement"))
      ∧ (∀ (token : Option String) (limit : Option ℤ) (dflt : ℤ),
          ∀ p ∈ search_x_posts token payload limit dflt,
            intFieldOf p "engagement"
                = intFieldOf p "likes" + intFieldOf p "replies"
                    + intFieldOf p "reposts" + intFieldOf p "quotes"
              ∧ (0 ≤ intFieldOf p "likes" → 0 ≤ intFieldOf p "replies" →
                  0 ≤ intFieldOf p "reposts" → 0 ≤ intFieldOf p "quotes" →
                  0 ≤ intFieldOf p "engagement"))
      ∧ (∀ p ∈ search_hacker_news_posts payload,
          intFieldOf p "engagement" = intFieldOf p "points" + intFieldOf p "comments"
            ∧ (0 ≤ intFieldOf p "points" → 0 ≤ intFieldOf p "comments" →
                0 ≤ intFieldOf p "engagement"))
      ∧ (∀ d : ℤ, _safe_int .vNull d = d ∧ _safe_int (.vStr "n/a") d = d
          ∧ _safe_int (.vArr []) d = d ∧ _safe_int (.vObj []) d = d)
      ∧ safeIntO none = 0 := by
  refine ⟨?_, ?_, ?_, fun d => ⟨rfl, rfl, rfl, rfl⟩, rfl⟩
  · intro p hp
    obtain ⟨c, hc, rfl⟩ := List.mem_map.mp hp
    have he : intFieldOf (redditPostOfChild c) "engagement"
        = intFieldOf (redditPostOfChild c) "upvotes"
            + intFieldOf (redditPostOfChild c) "comments" := rfl
    exact ⟨he, fun h1 h2 => by rw [he]; omega⟩
  · intro token limit dflt p hp
    by_cases htok : tokenMissing token = true
    · simp [search_x_posts, htok] at hp
    · rw [search_x_posts, if_neg htok] at hp
      have hp2 := List.mem_of_mem_take hp
      obtain ⟨item, hitem, rfl⟩ := List.mem_map.mp hp2
      have he : intFieldOf (xPostOfItem (xUsers payload) item) "engagement"
          = intFieldOf (xPostOfItem (xUsers payload) item) "likes"
              + intFieldOf (xPostOfItem (xUsers payload) item) "replies"
              + intFieldOf (xPostOfItem (xUsers payload) item) "reposts"
              + intFieldOf (xPostOfItem (xUsers payload) item) "quotes" := rfl
      exact ⟨he, fun h1 h2 h3 h4 => by rw [he]; omega⟩
  · intro p hp
    obtain ⟨hit, hh, rfl⟩ := List.mem_map.mp hp
    have he : intFieldOf (hnPostOfHit hit) "engagement"
        = intFieldOf (hnPostOfHit hit) "points"
            + intFieldOf (hnPostOfHit hit) "comments" := rfl
    exact ⟨he, fun h1 h2 => by rw [he]; omega⟩

/-- Counterexample payload for C5: the community forum reports a negative
vote counter, which the code sums without clamping. -/
def c5payload : PVal :=
  .vObj [("data", .vObj [("children", .vArr [.vObj [("data",
    .vObj [("ups", .vInt (-1)), ("num_comments", .vInt 0)])]])])]

/-- Counterexample to C5 as stated: on a well-formed response with `ups` equal
to -1 the fetcher produces one post whose engagement is -1, refuting the
claim that engagement is never negative. -/
theorem fetcher_engagement_negative_counterexample :
    (search_reddit_posts c5payload).length = 1
      ∧ intFieldOf ((search_reddit_posts c5payload).headI) "engagement" = -1
      ∧ intFieldOf ((search_reddit_posts c5payload).headI) "engagement" < 0 := by
  refine ⟨rfl, rfl, by decide⟩

/-- Witness payload for C5: one community-forum child with 3 upvotes and 4
comments. -/
def w5payload : PVal :=
  .vObj [("data", .vObj [("children", .vArr [.vObj [("data",
    .vObj [("ups", .vInt 3), ("num_comments", .vInt 4)])]])])]

/-- Witness for C5 at a one-child community-forum payload. -/
theorem fetcher_engagement_sum_witness :
    (search_reddit_posts w5payload).headI ∈ search_reddit_posts w5payload ∧
      (intFieldOf ((search_reddit_posts w5payload).headI) "engagement"
          = intFieldOf ((search_reddit_posts w5payload).headI) "upvotes"
              + intFieldOf ((search_reddit_posts w5payload).headI) "comments"
        ∧ (0 ≤ intFieldOf ((search_reddit_posts w5payload).headI) "upvotes" →
            0 ≤ intFieldOf ((search_reddit_posts w5payload).headI) "comments" →
            0 ≤ intFieldOf ((search_reddit_posts w5payload).headI) "engagement")) := by
  have hm : (search_reddit_posts w5payload).headI ∈ search_reddit_posts w5payload := by
    exact List.mem_cons_self _ _
  exact ⟨hm, (fetcher_engagement_sum w5payload).1 _ hm⟩

/-- C10 (amended): the microblog fetcher clamps its effective limit to
`max(10, min(100, limit or default))` and returns at most that many posts,
so every nonzero requested limit below 10 still requests 10, while the
community-forum and tech-news fetchers clamp to `max(1, min(100, ...))` and
so honour small positive limits exactly; a requested limit of 0 is falsy in
Python and falls back to the configured default instead. -/
theorem fetch_limit_clamps (token : Option String) (payload : PVal)
    (limit : Option ℤ) (dflt : ℤ) (hT : tokenMissing token = false) :
    xTake limit dflt = max 10 (min 100 (pyOrInt limit dflt))
      ∧ redditTake limit dflt = max 1 (min 100 (pyOrInt limit dflt))
      ∧ hnTake limit dflt = max 1 (min 100 (pyOrInt limit dflt))
      ∧ (search_x_posts token payload limit dflt).length ≤ (xTake limit dflt).toNat
      ∧ (∀ v : ℤ, v ≠ 0 → v < 10 → xTake (some v) dflt = 10)
      ∧ (∀ v : ℤ, 1 ≤ v → v < 10 →
          redditTake (some v) dflt = v ∧ hnTake (some v) dflt = v) := by
  refine ⟨rfl, rfl, rfl, ?_, ?_, ?_⟩
  · rw [search_x_posts, if_neg (by simp [hT])]
    exact List.length_take_le _ _
  · intro v hv0 hv10
    have hv : pyOrInt (some v) dflt = v := by simp [pyOrInt, hv0]
    unfold xTake
    rw [hv]
    omega
  · intro v hv1 hv10
    have hv : pyOrInt (some v) dflt = v := by
      have : v ≠ 0 := by omega
      simp [pyOrInt, this]
    unfold redditTake hnTake
    rw [hv]
    omega

/-- Counterexample payload for C10: a microblog response carrying 11 items. -/
def c10payload : PVal := .vObj [("data", .vArr (List.replicate 11 (.vObj [])))]

/-- Counterexample to C10 as stated: a requested limit of 0 is below 10, yet
the effective limit becomes the default 25 and the fetcher returns 11 posts,
more than 10. -/
theorem fetch_limit_zero_counterexample :
    (0 : ℤ) < 10 ∧ xTake (some 0) 25 = 25
      ∧ (search_x_posts (some "tok") c10payload (some 0) 25).length = 11
      ∧ 10 < (search_x_posts (some "tok") c10payload (some 0) 25).length := by
  exact ⟨by norm_num, by decide, by decide, by decide⟩

/-- Witness for C10 at a present token and a requested limit of 5. -/
theorem fetch_limit_clamps_witness :
    tokenMissing (some "tok") = false ∧
      (xTake (some 5) 25 = max 10 (min 100 (pyOrInt (some 5) 25))
        ∧ redditTake (some 5) 25 = max 1 (min 100 (pyOrInt (some 5) 25))
        ∧ hnTake (some 5) 25 = max 1 (min 100 (pyOrInt (some 5) 25))
        ∧ (search_x_posts (some "tok") c10payload (some 5) 25).length
            ≤ (xTake (some 5) 25).toNat
        ∧ (∀ v : ℤ, v ≠ 0 → v < 10 → xTake (some v) 25 = 10)
        ∧ (∀ v : ℤ, 1 ≤ v → v < 10 →
            redditTake (some v) 25 = v ∧ hnTake (some v) 25 = v)) := by
  have hT : tokenMissing (some "tok") = false := rfl
  exact ⟨hT, fetch_limit_clamps (some "tok") c10payload (some 5) 25 hT⟩
